import Mathlib

/- Verification of the naive state-machine framework from the blog post
   2024-10-17-naive-state-machine.md.  The Python engine is shallowly
   embedded: machine instances become records, the mutable object graph
   becomes explicit state passing, the `process_event` dispatcher becomes a
   pure function that also reports the relay deliveries it makes and the
   reaction body it fires, and exceptions become an explicit error field. -/

namespace NaiveStateMachine

/- The state symbols used by the concrete traffic-light scenario.  Python
   models states as Enum members compared by identity; a plain inductive
   with decidable equality captures that. -/
inductive St where
  | GREEN
  | YELLOW
  | RED
  | STOPPED
  | CYCLING
  deriving DecidableEq, Repr

/- dataclass Transition(source, destination, bidirectional=False) -/
structure Transition (σ : Type) where
  source : σ
  destination : σ
  bidirectional : Bool := false
  deriving DecidableEq

/- dataclass Event(name, source, state, meta).  The source machine object
   is identified by a numeric identity (Python compares `event.source ==
   self` by object identity); meta models the kwargs dict. -/
structure Event (σ μ : Type) where
  name : String
  source : Nat
  state : σ
  meta : μ
  deriving DecidableEq

/- The data attached to a function by the @action decorator:
   action(state, broadcast=False, when=None, unless=None). -/
structure ActionDecl (σ : Type) where
  target : σ
  broadcast : Bool
  whenS : Option (List σ)
  unlessS : Option (List σ)
  deriving DecidableEq

/- The data attached by the @reaction decorator: reaction(state, when=None,
   unless=None).  The behavior body of a reaction in the scenarios only
   invokes local actions, so it is deep-embedded as the list of local
   action names it calls. -/
structure ReactionDecl (σ : Type) where
  whenS : Option (List σ)
  unlessS : Option (List σ)
  bodyCalls : List String
  deriving DecidableEq

/- A member of a class namespace as seen by StateMachineMeta.__new__:
   an action function, a reaction function (with its trigger state), or a
   plain member carrying no markers. -/
inductive Member (σ : Type) where
  | act (decl : ActionDecl σ)
  | react (trigger : σ) (decl : ReactionDecl σ)
  | plain
  deriving DecidableEq

/- TransitionError carrying the states named in the message text. -/
structure TransErr (σ : Type) where
  src : σ
  tgt : σ
  deriving DecidableEq

/- A StateMachine instance.  transitionsMap is self.transitions_map built
   in __init__; publishers is the dict publisher -> last observed state
   (association list keyed by machine identity); consumers is the set of
   consumer identities (list kept duplicate-free, mirroring a Python set);
   events is the unbounded event log; broadcastEvents and reactions are
   the class-level registries built by the metaclass; actions is the table
   of action functions of the class. -/
structure Machine (σ μ : Type) where
  id : Nat
  state : σ
  transitionsMap : List (σ × List σ)
  consumers : List Nat
  publishers : List (Nat × σ)
  events : List (Event σ μ)
  broadcastEvents : List String
  reactions : List (σ × ReactionDecl σ)
  actions : List (String × ActionDecl σ)
  deriving DecidableEq

/- Association-list lookup, mirroring Python dict lookup. -/
def lookupAssoc {κ β : Type} [DecidableEq κ] : List (κ × β) → κ → Option β
  | [], _ => none
  | (k, v) :: rest, k' => if k = k' then some v else lookupAssoc rest k'

/- Association-list update, mirroring Python dict assignment d[k] = v
   (replace in place if present, else append). -/
def updateAssoc {κ β : Type} [DecidableEq κ] : List (κ × β) → κ → β → List (κ × β)
  | [], k, v => [(k, v)]
  | (k0, v0) :: rest, k, v =>
      if k0 = k then (k, v) :: rest else (k0, v0) :: updateAssoc rest k v

/- One step of the transitions_map construction loop in __init__:
   setdefault(source, []) then append(destination). -/
def appendEdge {σ : Type} [DecidableEq σ] (acc : List (σ × List σ)) (s d : σ) :
    List (σ × List σ) :=
  match lookupAssoc acc s with
  | none => acc ++ [(s, [d])]
  | some ds => updateAssoc acc s (ds ++ [d])

/- self.transitions_map built from the declared transition list, adding
   the reverse edge for bidirectional transitions. -/
def mkTransitionsMap {σ : Type} [DecidableEq σ] (ts : List (Transition σ)) :
    List (σ × List σ) :=
  ts.foldl
    (fun acc t =>
      let acc1 := appendEdge acc t.source t.destination
      if t.bidirectional then appendEdge acc1 t.destination t.source else acc1)
    []

/- states = set(list(self.publishers.values()) + [self.state]).  Guard
   checks only test membership, so a list works in place of the set. -/
def observedStates {σ μ : Type} (m : Machine σ μ) : List σ :=
  m.publishers.map Prod.snd ++ [m.state]

/- Python truthiness of an Optional[Set[State]]: None and the empty set
   are falsy. -/
def truthy {σ : Type} : Option (List σ) → Bool
  | some (_ :: _) => true
  | _ => false

/- Nonempty intersection test, as used by when.intersection(states). -/
def intersects {σ : Type} [DecidableEq σ] (a b : List σ) : Bool :=
  a.any (fun x => decide (x ∈ b))

/- The guard logic shared by the action and reaction wrappers:
   if when and not when.intersection(states): reject
   if unless and unless.intersection(states): reject
   else allow. -/
def guardAllows {σ : Type} [DecidableEq σ] (wh un : Option (List σ)) (st : List σ) : Bool :=
  if truthy wh && ! intersects (wh.getD []) st then false
  else if truthy un && intersects (un.getD []) st then false
  else true

/- publish_event: for consumer in self.consumers: consumer.process_event(event).
   The effect of each consumer.process_event call is abstracted as deliver,
   threaded through an accumulator; the returned list records the
   deliveries made, in order. -/
def publishEventT {σ μ α : Type} (deliver : α → Nat → Event σ μ → α) (acc : α)
    (cs : List Nat) (ev : Event σ μ) : α × List (Nat × Event σ μ) :=
  match cs with
  | [] => (acc, [])
  | c :: rest =>
      let pr := publishEventT deliver (deliver acc c ev) rest ev
      (pr.1, (c, ev) :: pr.2)

/- The outcome of one process_event call on one machine: the updated
   machine, the abstract accumulator after deliveries and any reaction
   body, the relay deliveries performed, whether a reaction body was
   invoked, and the TransitionError raised, if any. -/
structure StepOut (σ μ α : Type) where
  machine : Machine σ μ
  acc : α
  deliveries : List (Nat × Event σ μ)
  reactionFired : Bool
  err : Option (TransErr σ)

/- process_event and its two branches, translated line by line:
   append the event to the log; if event.source == self dispatch
   _process_internal_event (no-op when the target equals the current
   state, else validate against transitions_map, apply the transition and,
   for broadcast events, publish a relay event to every consumer, else
   raise TransitionError); otherwise dispatch _process_external_event
   (update publishers[event.source], then run the registered reaction
   wrapper, whose guard is checked before its body runs). -/
def processEventD {σ μ α : Type} [DecidableEq σ] (deliver : α → Nat → Event σ μ → α)
    (rbody : α → Event σ μ → α) (acc : α) (m : Machine σ μ) (ev : Event σ μ) :
    StepOut σ μ α :=
  let m1 : Machine σ μ := { m with events := m.events ++ [ev] }
  if ev.source = m1.id then
    if m1.state = ev.state then ⟨m1, acc, [], false, none⟩
    else if ev.state ∈ (lookupAssoc m1.transitionsMap m1.state).getD [] then
      let m2 : Machine σ μ := { m1 with state := ev.state }
      if ev.name ∈ m2.broadcastEvents then
        let relay : Event σ μ := ⟨ev.name, m2.id, m2.state, ev.meta⟩
        let pr := publishEventT deliver acc m2.consumers relay
        ⟨m2, pr.1, pr.2, false, none⟩
      else ⟨m2, acc, [], false, none⟩
    else ⟨m1, acc, [], false, some ⟨m1.state, ev.state⟩⟩
  else
    let m2 : Machine σ μ :=
      { m1 with publishers := updateAssoc m1.publishers ev.source ev.state }
    match lookupAssoc m2.reactions ev.state with
    | none => ⟨m2, acc, [], false, none⟩
    | some r =>
        if guardAllows r.whenS r.unlessS (observedStates m2) then
          ⟨m2, rbody acc ev, [], true, none⟩
        else ⟨m2, acc, [], false, none⟩

/- The wrapper produced by the @action decorator: evaluate the guard over
   the observed states (rejection is a silent return before the body);
   otherwise run the caller-supplied body, then hand the internal event to
   process_event.  The body is abstracted as a transformer of the
   accumulator.  (The extra_meta merge is skipped: no code in the post
   ever sets extra_meta, so getattr always yields None.) -/
def actionWrapperD {σ μ α : Type} [DecidableEq σ] (deliver : α → Nat → Event σ μ → α)
    (rbody : α → Event σ μ → α) (body : α → α) (name : String) (a : ActionDecl σ)
    (m : Machine σ μ) (acc : α) (meta : μ) : StepOut σ μ α :=
  if guardAllows a.whenS a.unlessS (observedStates m) then
    processEventD deliver rbody (body acc) m ⟨name, m.id, a.target, meta⟩
  else ⟨m, acc, [], false, none⟩

/- register(consumers): add each one to the consumers set (idempotent,
   modelled by a duplicate-free list). -/
def registerM {σ μ : Type} (m : Machine σ μ) (cs : List Nat) : Machine σ μ :=
  cs.foldl
    (fun acc c =>
      { acc with
        consumers := if c ∈ acc.consumers then acc.consumers else acc.consumers ++ [c] })
    m

/- One iteration of subscribe(publishers): self.publishers[publisher] =
   publisher.state, then publisher.register([self]).  Returns the updated
   subscriber and the updated publisher. -/
def subscribeOne {σ μ : Type} [DecidableEq σ] (a b : Machine σ μ) :
    Machine σ μ × Machine σ μ :=
  let a' : Machine σ μ := { a with publishers := updateAssoc a.publishers b.id b.state }
  (a', registerM b [a.id])

/- The registry-building loop of StateMachineMeta.__new__: collect the
   names of broadcast-flagged actions and the reaction table, raising on a
   duplicate reaction trigger state. -/
def buildRegistriesAux {σ : Type} [DecidableEq σ] (bc : List String)
    (rs : List (σ × ReactionDecl σ)) :
    List (String × Member σ) → Except String (List String × List (σ × ReactionDecl σ))
  | [] => Except.ok (bc, rs)
  | (n, Member.act a) :: rest =>
      buildRegistriesAux (if a.broadcast then bc ++ [n] else bc) rs rest
  | (_, Member.react t r) :: rest =>
      if t ∈ rs.map Prod.fst then Except.error "duplicate reaction for state"
      else buildRegistriesAux bc (rs ++ [(t, r)]) rest
  | (_, Member.plain) :: rest => buildRegistriesAux bc rs rest

def buildRegistries {σ : Type} [DecidableEq σ] (ns : List (String × Member σ)) :
    Except String (List String × List (σ × ReactionDecl σ)) :=
  buildRegistriesAux [] [] ns

/- The trigger states of the reaction members of a namespace, in order. -/
def reactionTriggers {σ : Type} (ns : List (String × Member σ)) : List σ :=
  ns.filterMap (fun p => match p.2 with | Member.react t _ => some t | _ => none)

/- The action table of a namespace. -/
def actionsOf {σ : Type} (ns : List (String × Member σ)) :
    List (String × ActionDecl σ) :=
  ns.filterMap (fun p => match p.2 with | Member.act a => some (p.1, a) | _ => none)

/- The class registries with the metaclass error defaulted away; used only
   for scenario namespaces, which build without error. -/
def registriesOf {σ : Type} [DecidableEq σ] (ns : List (String × Member σ)) :
    List String × List (σ × ReactionDecl σ) :=
  match buildRegistries ns with
  | Except.ok r => r
  | Except.error _ => ([], [])

/- StateMachine.__init__(initial_state): empty log, the given state, the
   transitions map built from the declared transitions, empty consumers
   and publishers, plus the class-level registries. -/
def mkInstance {σ : Type} [DecidableEq σ] (i : Nat) (ns : List (String × Member σ))
    (ts : List (Transition σ)) (init : σ) : Machine σ Unit :=
  { id := i
    state := init
    transitionsMap := mkTransitionsMap ts
    consumers := []
    publishers := []
    events := []
    broadcastEvents := (registriesOf ns).1
    reactions := (registriesOf ns).2
    actions := actionsOf ns }

/- A pending synchronous call in the multi-machine driver: an action
   invocation on a machine, or a process_event call on a machine. -/
inductive Call (σ : Type) where
  | act (mid : Nat) (name : String)
  | proc (mid : Nat) (ev : Event σ Unit)
  deriving DecidableEq

/- Errors the driver can surface: exhausted call-stack fuel, a missing
   machine or action (AttributeError territory, never hit in the
   scenarios), or a propagated TransitionError. -/
inductive EngErr (σ : Type) where
  | outOfFuel
  | missing
  | transition (src tgt : σ)
  deriving DecidableEq

/- The object graph: the set of live machine instances. -/
def World (σ : Type) : Type := List (Machine σ Unit)

def getM {σ : Type} (w : World σ) (i : Nat) : Option (Machine σ Unit) :=
  w.find? (fun m => m.id == i)

def setM {σ : Type} (w : World σ) (m : Machine σ Unit) : World σ :=
  w.map (fun x => if x.id = m.id then m else x)

/- The nested synchronous calls a process_event step makes: one
   process_event per relay delivery (internal branch), or the local action
   calls of the fired reaction body (external branch). -/
def nestedOf {σ : Type} [DecidableEq σ] (ev : Event σ Unit) (out : StepOut σ Unit Unit) :
    List (Call σ) :=
  out.deliveries.map (fun p => Call.proc p.1 p.2) ++
    (if out.reactionFired then
      match lookupAssoc out.machine.reactions ev.state with
      | some r => r.bodyCalls.map (fun n => Call.act out.machine.id n)
      | none => []
    else [])

/- The synchronous, depth-first call dynamics of the engine over the whole
   object graph.  Fuel bounds the call-stack depth; every step is the
   faithful per-machine step processEventD, with its pending nested calls
   run depth-first and an error aborting the remaining calls, exactly as a
   propagating Python exception would. -/
def runCall {σ : Type} [DecidableEq σ] : Nat → World σ → Call σ →
    World σ × Option (EngErr σ)
  | 0, w, _ => (w, some EngErr.outOfFuel)
  | Nat.succ fuel, w, Call.act mid name =>
      match getM w mid with
      | none => (w, some EngErr.missing)
      | some m =>
          match lookupAssoc m.actions name with
          | none => (w, some EngErr.missing)
          | some a =>
              if guardAllows a.whenS a.unlessS (observedStates m) then
                runCall fuel w (Call.proc mid ⟨name, m.id, a.target, ()⟩)
              else (w, none)
  | Nat.succ fuel, w, Call.proc mid ev =>
      match getM w mid with
      | none => (w, some EngErr.missing)
      | some m =>
          let out := processEventD (fun a _ _ => a) (fun a _ => a) () m ev
          let w' := setM w out.machine
          match out.err with
          | some te => (w', some (EngErr.transition te.src te.tgt))
          | none =>
              (nestedOf ev out).foldl
                (fun s c =>
                  match s.2 with
                  | some _ => s
                  | none => runCall fuel s.1 c)
                (w', none)

/- The literal scenario of the spec: machine type Light with cyclic
   transitions GREEN -> YELLOW -> RED -> GREEN and broadcast actions
   green, yellow, red. -/
def lightNS : List (String × Member St) :=
  [("green", Member.act ⟨St.GREEN, true, none, none⟩),
   ("yellow", Member.act ⟨St.YELLOW, true, none, none⟩),
   ("red", Member.act ⟨St.RED, true, none, none⟩)]

def lightTransitions : List (Transition St) :=
  [⟨St.GREEN, St.YELLOW, false⟩, ⟨St.YELLOW, St.RED, false⟩, ⟨St.RED, St.GREEN, false⟩]

/- Machine type Rider: transitions STOPPED <-> CYCLING, actions cycle and
   stop, a reaction entering CYCLING on GREEN and one entering STOPPED on
   RED, and none for YELLOW. -/
def riderNS : List (String × Member St) :=
  [("cycle", Member.act ⟨St.CYCLING, false, none, none⟩),
   ("stop", Member.act ⟨St.STOPPED, false, none, none⟩),
   ("on_green_light", Member.react St.GREEN ⟨none, none, ["cycle"]⟩),
   ("on_red_light", Member.react St.RED ⟨none, none, ["stop"]⟩)]

def riderTransitions : List (Transition St) := [⟨St.STOPPED, St.CYCLING, true⟩]

/- Light (identity 0) at the given initial state, Rider (identity 1) at
   CYCLING, and Rider subscribed to Light. -/
def scenarioWorld (lightInit : St) : World St :=
  let light := mkInstance 0 lightNS lightTransitions lightInit
  let rider := mkInstance 1 riderNS riderTransitions St.CYCLING
  let p := subscribeOne rider light
  [p.2, p.1]

/- Invoking one of Light's actions, with ample stack fuel. -/
def drive (w : World St) (n : String) : World St × Option (EngErr St) :=
  runCall 12 w (Call.act 0 n)

/- Modelled from the spec: the guard rule of claim C3, which tests mere
   presence of the when and unless sets rather than Python truthiness.
   Stated for comparison with guardAllows, the rule the code implements. -/
def guardPresenceRuleUnless {σ : Type} [DecidableEq σ] (un : Option (List σ))
    (st : List σ) : Bool :=
  match un with
  | some us => ! intersects us st
  | none => true

def guardPresenceRule {σ : Type} [DecidableEq σ] (wh un : Option (List σ))
    (st : List σ) : Bool :=
  match wh with
  | some ws => if intersects ws st then guardPresenceRuleUnless un st else false
  | none => guardPresenceRuleUnless un st

/- Modelled from the spec as amended: reject only when the when set is
   present, nonempty and disjoint; else reject only when the unless set is
   present, nonempty and intersecting; else allow. -/
def guardTruthyRuleUnless {σ : Type} [DecidableEq σ] (un : Option (List σ))
    (st : List σ) : Bool :=
  match un with
  | some (u :: us) => ! intersects (u :: us) st
  | _ => true

def guardTruthyRule {σ : Type} [DecidableEq σ] (wh un : Option (List σ))
    (st : List σ) : Bool :=
  match wh with
  | some (x :: ws) =>
      if intersects (x :: ws) st then guardTruthyRuleUnless un st else false
  | _ => guardTruthyRuleUnless un st

/- Helper lemmas. -/

lemma publishEventT_eq {σ μ α : Type} (deliver : α → Nat → Event σ μ → α)
    (ev : Event σ μ) : ∀ (cs : List Nat) (acc : α),
    publishEventT deliver acc cs ev =
      (cs.foldl (fun x c => deliver x c ev) acc, cs.map (fun c => (c, ev))) := by
  intro cs
  induction cs with
  | nil => intro acc; simp [publishEventT]
  | cons c rest ih => intro acc; simp [publishEventT, ih]

lemma lookupAssoc_updateAssoc {κ β : Type} [DecidableEq κ] (k : κ) (v : β) :
    ∀ (l : List (κ × β)), lookupAssoc (updateAssoc l k v) k = some v := by
  intro l
  induction l with
  | nil => simp [updateAssoc, lookupAssoc]
  | cons p rest ih =>
      by_cases h : p.1 = k
      · simp [updateAssoc, lookupAssoc, h]
      · simp [updateAssoc, lookupAssoc, h, ih]

lemma foldl_keep {α β : Type} : ∀ (cs : List β) (a : α), cs.foldl (fun x _ => x) a = a := by
  intro cs
  induction cs with
  | nil => intro a; rfl
  | cons c rest ih => intro a; simp [ih]

/- A name whose every action binding in the namespace is unflagged never
   enters the broadcast_events registry. -/
lemma buildRegistriesAux_unflagged {σ : Type} [DecidableEq σ] (n : String) :
    ∀ (ns : List (String × Member σ)) (bc : List String)
      (rs : List (σ × ReactionDecl σ)) (out : List String × List (σ × ReactionDecl σ)),
      buildRegistriesAux bc rs ns = Except.ok out → n ∉ bc →
      (∀ a : ActionDecl σ, (n, Member.act a) ∈ ns → a.broadcast = false) →
      n ∉ out.1 := by
  intro ns
  induction ns with
  | nil =>
      intro bc rs out h hn _
      simp [buildRegistriesAux] at h
      rw [← h]
      exact hn
  | cons p rest ih =>
      rcases p with ⟨nm, mem⟩
      intro bc rs out h hn hall
      cases mem with
      | act a =>
          simp only [buildRegistriesAux] at h
          by_cases hb : a.broadcast
          · have hnm : nm ≠ n := by
              intro he
              have := hall a (by rw [he]; exact List.mem_cons_self _ _)
              rw [this] at hb
              exact Bool.false_ne_true hb
            refine ih (if a.broadcast then bc ++ [nm] else bc) rs out h ?_ ?_
            · intro hmem
              rcases (by simpa [hb] using hmem : n ∈ bc ∨ n = nm) with h1 | h2
              · exact hn h1
              · exact hnm h2.symm
            · intro a' ha'
              exact hall a' (List.mem_cons_of_mem _ ha')
          · refine ih (if a.broadcast then bc ++ [nm] else bc) rs out h ?_ ?_
            · simp [hb, hn]
            · intro a' ha'
              exact hall a' (List.mem_cons_of_mem _ ha')
      | react t r =>
          simp only [buildRegistriesAux] at h
          by_cases ht : t ∈ rs.map Prod.fst
          · simp [ht] at h
          · simp only [ht, if_neg, ite_false] at h
            refine ih bc (rs ++ [(t, r)]) out h hn ?_
            intro a' ha'
            exact hall a' (List.mem_cons_of_mem _ ha')
      | plain =>
          simp only [buildRegistriesAux] at h
          refine ih bc rs out h hn ?_
          intro a' ha'
          exact hall a' (List.mem_cons_of_mem _ ha')

/- A duplicate among the still-pending reaction triggers (or a pending
   trigger already registered) makes the metaclass loop raise. -/
lemma buildRegistriesAux_err {σ : Type} [DecidableEq σ] :
    ∀ (ns : List (String × Member σ)) (bc : List String)
      (rs : List (σ × ReactionDecl σ)),
      (rs.map Prod.fst).Nodup →
      ¬ (rs.map Prod.fst ++ reactionTriggers ns).Nodup →
      ∃ e, buildRegistriesAux bc rs ns = Except.error e := by
  intro ns
  induction ns with
  | nil =>
      intro bc rs hk hnd
      exact absurd (by simpa [reactionTriggers] using hk) hnd
  | cons p rest ih =>
      rcases p with ⟨nm, mem⟩
      intro bc rs hk hnd
      cases mem with
      | act a =>
          simp only [buildRegistriesAux]
          exact ih _ rs hk (by simpa [reactionTriggers] using hnd)
      | react t r =>
          by_cases ht : t ∈ rs.map Prod.fst
          · exact ⟨"duplicate reaction for state", by simp [buildRegistriesAux, ht]⟩
          · have hk' : ((rs ++ [(t, r)]).map Prod.fst).Nodup := by
              simp [List.nodup_append, hk, ht]
            have hnd' : ¬ (((rs ++ [(t, r)]).map Prod.fst) ++ reactionTriggers rest).Nodup := by
              intro hcon
              apply hnd
              have : (rs.map Prod.fst ++ [t]) ++ reactionTriggers rest =
                  rs.map Prod.fst ++ t :: reactionTriggers rest := by
                simp
              simpa [reactionTriggers, this] using hcon
            have := ih bc (rs ++ [(t, r)]) hk' hnd'
            simpa [buildRegistriesAux, ht] using this
      | plain =>
          simp only [buildRegistriesAux]
          exact ih bc rs hk (by simpa [reactionTriggers] using hnd)

/- A successful metaclass run leaves a duplicate-free reaction table. -/
lemma buildRegistriesAux_ok_nodup {σ : Type} [DecidableEq σ] :
    ∀ (ns : List (String × Member σ)) (bc : List String)
      (rs : List (σ × ReactionDecl σ)) (out : List String × List (σ × ReactionDecl σ)),
      (rs.map Prod.fst).Nodup → buildRegistriesAux bc rs ns = Except.ok out →
      (out.2.map Prod.fst).Nodup := by
  intro ns
  induction ns with
  | nil =>
      intro bc rs out hk h
      simp [buildRegistriesAux] at h
      rw [← h]
      exact hk
  | cons p rest ih =>
      rcases p with ⟨nm, mem⟩
      intro bc rs out hk h
      cases mem with
      | act a =>
          simp only [buildRegistriesAux] at h
          exact ih _ rs out hk h
      | react t r =>
          simp only [buildRegistriesAux] at h
          by_cases ht : t ∈ rs.map Prod.fst
          · simp [ht] at h
          · simp only [ht, ite_false] at h
            refine ih bc (rs ++ [(t, r)]) out ?_ h
            simp [List.nodup_append, hk, ht]
      | plain =>
          simp only [buildRegistriesAux] at h
          exact ih bc rs out hk h

/- Claim theorems. -/

/-- Claim C1, as stated, is false: with Light constructed at GREEN, the
adjacency of GREEN is only YELLOW, so driving Light.red() raises a
TransitionError and Rider stays at CYCLING instead of reaching STOPPED. -/
theorem c1_counterexample :
    (drive (scenarioWorld St.GREEN) "red").2 =
        some (EngErr.transition St.GREEN St.RED) ∧
      (getM (drive (scenarioWorld St.GREEN) "red").1 1).map Machine.state =
        some St.CYCLING := by
  decide

/-- Claim C1 as amended: with Light constructed at YELLOW (the initial
state the source scenario actually uses), Rider at CYCLING and Rider
subscribed to Light, driving Light.red(), Light.green(), Light.yellow()
in order leaves the observed Rider state sequence STOPPED, CYCLING,
CYCLING, with no error; the final YELLOW is delivered (Rider records the
publisher at YELLOW) but causes no reaction. -/
theorem c1_scenario :
    (drive (scenarioWorld St.YELLOW) "red").2 = none ∧
      (drive ((drive (scenarioWorld St.YELLOW) "red").1) "green").2 = none ∧
      (drive ((drive ((drive (scenarioWorld St.YELLOW) "red").1) "green").1)
          "yellow").2 = none ∧
      (getM ((drive (scenarioWorld St.YELLOW) "red").1) 1).map Machine.state =
        some St.STOPPED ∧
      (getM ((drive ((drive (scenarioWorld St.YELLOW) "red").1) "green").1) 1).map
          Machine.state = some St.CYCLING ∧
      (getM ((drive ((drive ((drive (scenarioWorld St.YELLOW) "red").1) "green").1)
            "yellow").1) 1).map Machine.state = some St.CYCLING ∧
      (getM ((drive ((drive ((drive (scenarioWorld St.YELLOW) "red").1) "green").1)
            "yellow").1) 1).map (fun m => lookupAssoc m.publishers 0) =
        some (some St.YELLOW) := by
  decide

/-- Claim C6: an internal event whose target state equals the current
state is an idempotent no-op: the state (and the whole machine apart from
the event log) is unchanged, the event is still appended to the log, and
nothing is delivered to any consumer and no error is raised, regardless
of whether the action is broadcast-flagged. -/
theorem c6_idempotent_noop {σ μ α : Type} [DecidableEq σ]
    (deliver : α → Nat → Event σ μ → α) (rbody : α → Event σ μ → α) (acc : α)
    (m : Machine σ μ) (ev : Event σ μ) (hsrc : ev.source = m.id)
    (hstate : ev.state = m.state) :
    processEventD deliver rbody acc m ev =
      ⟨{ m with events := m.events ++ [ev] }, acc, [], false, none⟩ := by
  simp [processEventD, hsrc, hstate]

/-- Claim C6 witness: a concrete broadcast-flagged no-op invocation. -/
theorem c6_witness :
    processEventD (σ := St) (μ := Unit) (α := Nat) (fun a _ _ => a + 1)
        (fun a _ => a) 0 (mkInstance 0 lightNS lightTransitions St.GREEN)
        ⟨"green", 0, St.GREEN, ()⟩ =
      ⟨{ mkInstance 0 lightNS lightTransitions St.GREEN with
          events := [⟨"green", 0, St.GREEN, ()⟩] }, 0, [], false, none⟩ :=
  c6_idempotent_noop (fun a _ _ => a + 1) (fun a _ => a) 0
    (mkInstance 0 lightNS lightTransitions St.GREEN)
    ⟨"green", 0, St.GREEN, ()⟩ rfl rfl

/-- Claim C9: subscribing A to B snapshots B's current state into
A.publishers keyed by B, leaves A.consumers untouched, and registers A
into B.consumers via B.register; register unions idempotently, so
repeated registration of the same consumer leaves the set unchanged. -/
theorem c9_subscribe_register {σ μ : Type} [DecidableEq σ] :
    (∀ a b : Machine σ μ,
        lookupAssoc (subscribeOne a b).1.publishers b.id = some b.state ∧
          (subscribeOne a b).1.consumers = a.consumers ∧
          a.id ∈ (subscribeOne a b).2.consumers ∧
          (subscribeOne a b).2 = registerM b [a.id]) ∧
      ∀ (m : Machine σ μ) (c : Nat), registerM (registerM m [c]) [c] = registerM m [c] := by
  constructor
  · intro a b
    refine ⟨lookupAssoc_updateAssoc b.id b.state a.publishers, rfl, ?_, rfl⟩
    by_cases h : a.id ∈ b.consumers <;> simp [subscribeOne, registerM, h]
  · intro m c
    by_cases h : c ∈ m.consumers <;> simp [registerM, h]

/-- Claim C10: an empty when set behaves exactly like an absent when (the
clause is skipped by truthiness, so it never rejects), and an empty
unless set never blocks anything. -/
theorem c10_empty_guard_sets {σ : Type} [DecidableEq σ] :
    (∀ (un : Option (List σ)) (st : List σ),
        guardAllows (some []) un st = guardAllows none un st) ∧
      ∀ (wh : Option (List σ)) (st : List σ),
        guardAllows wh (some []) st = guardAllows wh none st := by
  constructor
  · intro un st
    simp [guardAllows, truthy]
  · intro wh st
    simp [guardAllows, truthy, intersects]

/-- Claim C3, as stated, is false: it says a present when set that is
disjoint from the observed-state-set rejects, but the code tests Python
truthiness, so a present-but-empty when set (which is disjoint from
everything) is skipped and the guard allows. -/
theorem c3_counterexample :
    guardAllows (some ([] : List St)) none [St.GREEN] = true ∧
      guardPresenceRule (some ([] : List St)) none [St.GREEN] = false := by
  decide

/-- Claim C3 as amended: the guard evaluates in this fixed order — if when
is present, nonempty and disjoint from the observed-state-set, reject;
else if unless is present, nonempty and intersects the set, reject; else
allow (both absent always allow).  In particular an action with
when = {A} and unless = {A} never fires while A is in the set: the
satisfied when passes, then unless rejects. -/
theorem c3_guard_rule {σ : Type} [DecidableEq σ] :
    (∀ (wh un : Option (List σ)) (st : List σ),
        guardAllows wh un st = guardTruthyRule wh un st) ∧
      ∀ (a : σ) (st : List σ), a ∈ st → guardAllows (some [a]) (some [a]) st = false := by
  constructor
  · intro wh un st
    rcases wh with _ | wl
    · rcases un with _ | ul
      · simp [guardAllows, truthy, guardTruthyRule, guardTruthyRuleUnless]
      · rcases ul with _ | ⟨u, us⟩
        · simp [guardAllows, truthy, guardTruthyRule, guardTruthyRuleUnless]
        · by_cases hI : intersects (u :: us) st <;>
            simp [guardAllows, truthy, guardTruthyRule, guardTruthyRuleUnless, hI]
    · rcases wl with _ | ⟨x, ws⟩
      · rcases un with _ | ul
        · simp [guardAllows, truthy, guardTruthyRule, guardTruthyRuleUnless]
        · rcases ul with _ | ⟨u, us⟩
          · simp [guardAllows, truthy, guardTruthyRule, guardTruthyRuleUnless]
          · by_cases hI : intersects (u :: us) st <;>
              simp [guardAllows, truthy, guardTruthyRule, guardTruthyRuleUnless, hI]
      · by_cases hW : intersects (x :: ws) st
        · rcases un with _ | ul
          · simp [guardAllows, truthy, guardTruthyRule, guardTruthyRuleUnless, hW]
          · rcases ul with _ | ⟨u, us⟩
            · simp [guardAllows, truthy, guardTruthyRule, guardTruthyRuleUnless, hW]
            · by_cases hI : intersects (u :: us) st <;>
                simp [guardAllows, truthy, guardTruthyRule, guardTruthyRuleUnless, hW, hI]
        · simp [guardAllows, truthy, guardTruthyRule, guardTruthyRuleUnless, hW]
  · intro a st ha
    have hI : intersects [a] st = true := by simp [intersects, ha]
    simp [guardAllows, truthy, hI]

/-- Claim C3 witness: the when = unless = singleton guard at a state that
is in the observed-state-set. -/
theorem c3_witness :
    St.GREEN ∈ [St.GREEN] ∧
      guardAllows (some [St.GREEN]) (some [St.GREEN]) [St.GREEN] = false :=
  ⟨by decide, c3_guard_rule.2 St.GREEN [St.GREEN] (by decide)⟩

/-- Claim C2: once an action invocation reaches dispatch (its guard
passed), if the declared adjacency has an edge from the current state to
the action target, the instance ends at the target (including the
idempotent case where the target already is the current state); if there
is no such edge and the target differs from the current state, a
TransitionError is raised to the caller and the current state is left
unchanged. -/
theorem c2_transition_discipline {σ μ α : Type} [DecidableEq σ]
    (deliver : α → Nat → Event σ μ → α) (rbody : α → Event σ μ → α) (body : α → α)
    (name : String) (a : ActionDecl σ) (m : Machine σ μ) (acc : α) (meta : μ)
    (hguard : guardAllows a.whenS a.unlessS (observedStates m) = true) :
    (a.target ∈ (lookupAssoc m.transitionsMap m.state).getD [] →
        (actionWrapperD deliver rbody body name a m acc meta).machine.state = a.target) ∧
      (a.target ∉ (lookupAssoc m.transitionsMap m.state).getD [] → a.target ≠ m.state →
        (actionWrapperD deliver rbody body name a m acc meta).err =
            some ⟨m.state, a.target⟩ ∧
          (actionWrapperD deliver rbody body name a m acc meta).machine.state = m.state) := by
  constructor
  · intro hmem
    by_cases hs : m.state = a.target
    · simp [actionWrapperD, processEventD, hguard, hs]
    · by_cases hb : name ∈ m.broadcastEvents <;>
        simp [actionWrapperD, processEventD, hguard, hs, hmem, hb]
  · intro hmem hne
    have hs : ¬ m.state = a.target := fun h => hne h.symm
    simp [actionWrapperD, processEventD, hguard, hs, hmem]

/-- Claim C2 witness: Light at YELLOW may dispatch red (edge present) and
ends at RED; dispatching green from YELLOW (no edge) raises a
TransitionError and leaves the state at YELLOW. -/
theorem c2_witness :
    ((actionWrapperD (σ := St) (μ := Unit) (α := Nat) (fun a _ _ => a)
          (fun a _ => a) (fun a => a + 1) "red" ⟨St.RED, true, none, none⟩
          (mkInstance 0 lightNS lightTransitions St.YELLOW) 0 ()).machine.state =
        St.RED) ∧
      (actionWrapperD (σ := St) (μ := Unit) (α := Nat) (fun a _ _ => a)
            (fun a _ => a) (fun a => a + 1) "green" ⟨St.GREEN, true, none, none⟩
            (mkInstance 0 lightNS lightTransitions St.YELLOW) 0 ()).err =
          some ⟨St.YELLOW, St.GREEN⟩ :=
  ⟨(c2_transition_discipline (fun a _ _ => a) (fun a _ => a) (fun a => a + 1)
      "red" ⟨St.RED, true, none, none⟩
      (mkInstance 0 lightNS lightTransitions St.YELLOW) 0 () (by decide)).1 (by decide),
    ((c2_transition_discipline (fun a _ _ => a) (fun a _ => a) (fun a => a + 1)
        "green" ⟨St.GREEN, true, none, none⟩
        (mkInstance 0 lightNS lightTransitions St.YELLOW) 0 () (by decide)).2
      (by decide) (by decide)).1⟩

/-- Claim C4: the caller-supplied behavior body runs at most once per
action call and only if the guard passed; it runs before transition
legality is checked, so when the target is unreachable the
TransitionError is raised with the body effect already applied and not
rolled back.  The first conjunct shows a failed guard returns with no
effect at all, the second shows the illegal-transition outcome keeps the
body effect (acc is body acc) alongside the error, and the third bounds
the number of body runs by one on every path, via a counting body. -/
theorem c4_body_before_legality {σ μ α : Type} [DecidableEq σ]
    (deliver : α → Nat → Event σ μ → α) (rbody : α → Event σ μ → α) (body : α → α)
    (name : String) (a : ActionDecl σ) (m : Machine σ μ) (acc : α) (meta : μ) :
    (guardAllows a.whenS a.unlessS (observedStates m) = false →
        actionWrapperD deliver rbody body name a m acc meta = ⟨m, acc, [], false, none⟩) ∧
      (guardAllows a.whenS a.unlessS (observedStates m) = true →
        a.target ∉ (lookupAssoc m.transitionsMap m.state).getD [] →
        a.target ≠ m.state →
        actionWrapperD deliver rbody body name a m acc meta =
          ⟨{ m with events := m.events ++ [⟨name, m.id, a.target, meta⟩] }, body acc,
            [], false, some ⟨m.state, a.target⟩⟩) ∧
      ∀ n : Nat,
        (actionWrapperD (σ := σ) (μ := μ) (α := Nat) (fun x _ _ => x) (fun x _ => x)
            (fun x => x + 1) name a m n meta).acc ≤ n + 1 := by
  refine ⟨?_, ?_, ?_⟩
  · intro hg
    simp [actionWrapperD, hg]
  · intro hg hmem hne
    have hs : ¬ m.state = a.target := fun h => hne h.symm
    simp [actionWrapperD, processEventD, hg, hs, hmem]
  · intro n
    by_cases hg : guardAllows a.whenS a.unlessS (observedStates m) = true
    · by_cases hs : m.state = a.target
      · simp [actionWrapperD, processEventD, hg, hs]
      · by_cases hmem : a.target ∈ (lookupAssoc m.transitionsMap m.state).getD []
        · by_cases hb : name ∈ m.broadcastEvents
          · simp [actionWrapperD, processEventD, hg, hs, hmem, hb, publishEventT_eq,
              foldl_keep]
          · simp [actionWrapperD, processEventD, hg, hs, hmem, hb]
        · simp [actionWrapperD, processEventD, hg, hs, hmem]
    · simp [actionWrapperD, hg]

/-- Claim C4 witness: Light at YELLOW invoking green — the guard passes,
the body effect (a counter increment) lands, and the TransitionError is
raised afterwards with no rollback of that effect. -/
theorem c4_witness :
    actionWrapperD (σ := St) (μ := Unit) (α := Nat) (fun x _ _ => x) (fun x _ => x)
        (fun x => x + 1) "green" ⟨St.GREEN, true, none, none⟩
        (mkInstance 0 lightNS lightTransitions St.YELLOW) 0 () =
      ⟨{ mkInstance 0 lightNS lightTransitions St.YELLOW with
          events := [⟨"green", 0, St.GREEN, ()⟩] }, 1, [], false,
        some ⟨St.YELLOW, St.GREEN⟩⟩ :=
  (c4_body_before_legality (fun x _ _ => x) (fun x _ => x) (fun x => x + 1) "green"
      ⟨St.GREEN, true, none, none⟩ (mkInstance 0 lightNS lightTransitions St.YELLOW)
      0 ()).2.1 (by decide) (by decide) (by decide)

/-- Claim C5: a successful broadcast-flagged transition delivers exactly
one relay event — same name, the new state, same metadata — to each
current consumer, in order, by invoking each consumer's process_event
(the fold of deliver), synchronously within the call; an internal event
whose name is not in broadcast_events never produces a delivery; and an
action never flagged broadcast under its name never enters
broadcast_events when the class registries are built. -/
theorem c5_broadcast_law {σ μ α : Type} [DecidableEq σ]
    (deliver : α → Nat → Event σ μ → α) (rbody : α → Event σ μ → α) (acc : α)
    (m : Machine σ μ) (ev : Event σ μ) (hsrc : ev.source = m.id) :
    (ev.state ∈ (lookupAssoc m.transitionsMap m.state).getD [] →
        ev.state ≠ m.state → ev.name ∈ m.broadcastEvents →
        (processEventD deliver rbody acc m ev).deliveries =
            m.consumers.map (fun c => (c, ⟨ev.name, m.id, ev.state, ev.meta⟩)) ∧
          (processEventD deliver rbody acc m ev).acc =
            m.consumers.foldl
              (fun x c => deliver x c ⟨ev.name, m.id, ev.state, ev.meta⟩) acc) ∧
      (ev.name ∉ m.broadcastEvents →
        (processEventD deliver rbody acc m ev).deliveries = []) ∧
      ∀ (ns : List (String × Member σ)) (bc : List String)
        (rs : List (σ × ReactionDecl σ)) (n : String),
        buildRegistries ns = Except.ok (bc, rs) →
        (∀ a : ActionDecl σ, (n, Member.act a) ∈ ns → a.broadcast = false) →
        n ∉ bc := by
  refine ⟨?_, ?_, ?_⟩
  · intro hmem hne hb
    have hs : ¬ m.state = ev.state := fun h => hne h.symm
    constructor <;> simp [processEventD, hsrc, hs, hmem, hb, publishEventT_eq]
  · intro hb
    by_cases hs : m.state = ev.state
    · simp [processEventD, hsrc, hs]
    · by_cases hmem : ev.state ∈ (lookupAssoc m.transitionsMap m.state).getD []
      · simp [processEventD, hsrc, hs, hmem, hb]
      · simp [processEventD, hsrc, hs, hmem]
  · intro ns bc rs n h hall
    exact buildRegistriesAux_unflagged n ns [] [] (bc, rs) h (List.not_mem_nil n) hall

/-- Claim C5 witness: Light at YELLOW with Rider subscribed dispatches
red — one relay delivery to consumer 1 carrying red, identity 0, RED. -/
theorem c5_witness :
    (processEventD (σ := St) (μ := Unit) (α := Nat) (fun x _ _ => x + 1) (fun x _ => x)
          0 (subscribeOne (mkInstance 1 riderNS riderTransitions St.CYCLING)
            (mkInstance 0 lightNS lightTransitions St.YELLOW)).2
          ⟨"red", 0, St.RED, ()⟩).deliveries = [(1, ⟨"red", 0, St.RED, ()⟩)] :=
  ((c5_broadcast_law (fun x _ _ => x + 1) (fun x _ => x) 0
      (subscribeOne (mkInstance 1 riderNS riderTransitions St.CYCLING)
        (mkInstance 0 lightNS lightTransitions St.YELLOW)).2
      ⟨"red", 0, St.RED, ()⟩ rfl).1 (by decide) (by decide) (by decide)).1

/-- Claim C7: handling an event from another machine always first records
the sender's state in publishers, then — only if a reaction is registered
for that state — evaluates its guard against the observed-state-set
recomputed after that update and invokes the body only when the guard
passes; with no registered reaction the event is silently ignored and no
error is raised. -/
theorem c7_external_event {σ μ α : Type} [DecidableEq σ]
    (deliver : α → Nat → Event σ μ → α) (rbody : α → Event σ μ → α) (acc : α)
    (m : Machine σ μ) (ev : Event σ μ) (hsrc : ¬ ev.source = m.id) :
    ((processEventD deliver rbody acc m ev).machine =
        { m with events := m.events ++ [ev],
                 publishers := updateAssoc m.publishers ev.source ev.state }) ∧
      (processEventD deliver rbody acc m ev).err = none ∧
      (processEventD deliver rbody acc m ev).deliveries = [] ∧
      ((processEventD deliver rbody acc m ev).reactionFired = true ↔
        ∃ r, lookupAssoc m.reactions ev.state = some r ∧
          guardAllows r.whenS r.unlessS
            (observedStates
              { m with events := m.events ++ [ev],
                       publishers := updateAssoc m.publishers ev.source ev.state }) =
            true) ∧
      ((processEventD deliver rbody acc m ev).acc =
        if (processEventD deliver rbody acc m ev).reactionFired then rbody acc ev
        else acc) ∧
      (lookupAssoc m.reactions ev.state = none →
        (processEventD deliver rbody acc m ev).reactionFired = false) := by
  rcases h : lookupAssoc m.reactions ev.state with _ | r
  · simp [processEventD, hsrc, h]
  · by_cases hg : guardAllows r.whenS r.unlessS
        ((updateAssoc m.publishers ev.source ev.state).map Prod.snd ++ [m.state]) = true
    · simp [processEventD, observedStates, hsrc, h, hg]
    · simp [processEventD, observedStates, hsrc, h, hg]

/-- Claim C7 witness: Rider receiving green from Light (identity 0)
records the publisher state and raises no error. -/
theorem c7_witness :
    ¬ (0 : Nat) = (mkInstance 1 riderNS riderTransitions St.CYCLING).id ∧
      (processEventD (σ := St) (μ := Unit) (α := Nat) (fun x _ _ => x) (fun x _ => x)
          5 (mkInstance 1 riderNS riderTransitions St.CYCLING)
          ⟨"green", 0, St.GREEN, ()⟩).err = none :=
  ⟨by decide,
    (c7_external_event (fun x _ _ => x) (fun x _ => x) 5
        (mkInstance 1 riderNS riderTransitions St.CYCLING)
        ⟨"green", 0, St.GREEN, ()⟩ (by decide)).2.1⟩

/-- Claim C8: two reaction members bound to the same trigger state make
the metaclass registry construction fail with an error, before any
instance is built from it; and every namespace that builds successfully
yields a reaction table with pairwise distinct trigger states. -/
theorem c8_duplicate_reaction {σ : Type} [DecidableEq σ]
    (ns : List (String × Member σ)) :
    (¬ (reactionTriggers ns).Nodup → ∃ e, buildRegistries ns = Except.error e) ∧
      ∀ (bc : List String) (rs : List (σ × ReactionDecl σ)),
        buildRegistries ns = Except.ok (bc, rs) → (rs.map Prod.fst).Nodup := by
  constructor
  · intro hnd
    exact buildRegistriesAux_err ns [] [] (by simp) (by simpa using hnd)
  · intro bc rs h
    exact buildRegistriesAux_ok_nodup ns [] [] (bc, rs) (by simp) h

/- A namespace declaring two reactions for the same trigger state. -/
def dupNS : List (String × Member St) :=
  [("on_a", Member.react St.GREEN ⟨none, none, []⟩),
   ("on_b", Member.react St.GREEN ⟨none, none, []⟩)]

/-- Claim C8 witness: the duplicate-GREEN namespace has repeated triggers
and its registry construction raises. -/
theorem c8_witness :
    ¬ (reactionTriggers dupNS).Nodup ∧ ∃ e, buildRegistries dupNS = Except.error e :=
  ⟨by decide, (c8_duplicate_reaction dupNS).1 (by decide)⟩

end NaiveStateMachine
